import Mathlib

/-!
Verification of the `bower_install` Django management command
(`djangobwr/management/commands/bower_install.py`): a shallow embedding of
its descriptor cache, main-entry resolver, tool invoker, flattening engine
and pipeline driver, together with theorems checking the specification.

The file system is modelled abstractly: `FS` gives existence, content and
modification time per path string; `glob` results and descriptor parses are
read-only function parameters. Python exceptions that escape the command are
modelled by `Option PyError` results that abort the surrounding iteration.
-/

namespace DjangoBwr

/-- Index of the last occurrence of a character in a list, if any. -/
def rfindIdx (l : List Char) (c : Char) : Option Nat :=
  ((l.enum.filter (fun q => q.2 == c)).map (fun q => q.1)).getLast?

/-- Model of POSIX `os.path.join` for two segments, as used in the command:
absolute second segment wins; otherwise a single separator is inserted
unless one is already present. -/
def pathJoin (a b : String) : String :=
  if b.data.head? == some '/' then b
  else if a = "" then b
  else if a.data.getLast? == some '/' then a ++ b
  else a ++ "/" ++ b

/-- Model of `os.path.basename`: the part after the last separator. -/
def basename (p : String) : String :=
  match rfindIdx p.data '/' with
  | none => p
  | some i => String.mk (p.data.drop (i + 1))

/-- Model of `os.path.splitext`: split at the last dot of the final path
segment, unless that segment consists only of leading dots up to there. -/
def splitext (p : String) : String × String :=
  let l := p.data
  match rfindIdx l '.' with
  | none => (p, "")
  | some dotIdx =>
    let baseStart : Nat :=
      match rfindIdx l '/' with
      | none => 0
      | some i => i + 1
    if dotIdx < baseStart then (p, "")
    else
      let pre := (l.drop baseStart).take (dotIdx - baseStart)
      if pre.any (fun ch => ch != '.') then
        (String.mk (l.take dotIdx), String.mk (l.drop dotIdx))
      else (p, "")

/-- The value of the `main` field of a bower descriptor, as consumed by the
command: absent (`None` from `dict.get`), a scalar string, or a list. -/
inductive MainVal
  | absent
  | scalar (s : String)
  | list (l : List String)
deriving DecidableEq, Repr

/-- A parsed bower descriptor, restricted to the two fields the command
reads: `main` and `version`. -/
structure Descriptor where
  main : MainVal
  version : Option String
deriving DecidableEq, Repr

/-- Embedding of `Command.get_bower_main_list` (bower_install.py lines
70-83): a list is returned unchanged, a truthy (non-empty) scalar is
wrapped in a one-element list, and anything falsy (absent, empty string)
gives the empty list. -/
def get_bower_main_list (m : MainVal) : List String :=
  match m with
  | .list l => l
  | .scalar s => if s ≠ "" then [s] else []
  | .absent => []

/-- Embedding of `filter(None, main_list)` (line 112): Python string
truthiness keeps exactly the non-empty entries. -/
def filteredMain (l : List String) : List String :=
  l.filter (fun s => s ≠ "")

/-- Outcome of the `bower --version` probe run by `Command.bower_install`
(lines 49-57): the binary was not found (`OSError`), the probe command ran
and failed (`CalledProcessError`), or it succeeded with some output. -/
inductive ProbeResult
  | toolMissing (errMsg : String)
  | probeFailed (errMsg : String)
  | ok (versionText : String)
deriving DecidableEq, Repr

/-- Result of one `Command.bower_install` call: either the process exited
with a code before installing, or the install command was invoked with the
given argument vector. -/
inductive InvocationOutcome
  | exitCode (n : Nat)
  | installed (args : List String)
deriving DecidableEq, Repr

/-- Embedding of `Command.bower_install` (lines 39-64): probe the bower
version first; `OSError` exits the process with status 1,
`CalledProcessError` exits with status 2, and only a successful probe
reaches the actual `bower install` invocation. -/
def bower_install (probe : ProbeResult) (bowerJsonPath destDir : String) :
    InvocationOutcome :=
  match probe with
  | .toolMissing _ => .exitCode 1
  | .probeFailed _ => .exitCode 2
  | .ok _ =>
      .installed ["bower", "install", bowerJsonPath, "--verbose",
        "--config.cwd=" ++ destDir, "-p"]

/-- Abstract file-system state: existence, content and modification time
per path. Modification time is carried only to express that the flattening
logic never consults it. -/
structure FS where
  pathExists : String → Bool
  content : String → String
  mtime : String → Nat

/-- Effect of `os.makedirs(d)` on the file system (parent creation is not
tracked; no path in the model depends on it). -/
def FS.mkdir (fs : FS) (d : String) : FS :=
  { fs with pathExists := fun p => p == d || fs.pathExists p }

/-- Effect of `shutil.copy(src, dstRoot)` writing `dst`: the destination
file now exists with the content of the source; `shutil.copy` does not
preserve the modification time, which the model leaves unspecified by
keeping the old map. -/
def FS.copyFile (fs : FS) (src dst : String) : FS :=
  { pathExists := fun p => p == dst || fs.pathExists p,
    content := fun p => if p == dst then fs.content src else fs.content p,
    mtime := fs.mtime }

/-- Python exceptions that can escape the flattening loop: `IOError` from
opening or copying a missing file, `TypeError` from `"-" + None`, and
`AssertionError` from the trailing-separator assert. -/
inductive PyError
  | ioError (path : String)
  | typeError
  | assertionError
deriving DecidableEq, Repr

/-- Observable file-system actions of the flattening engine: the
missing-source report print, `os.makedirs`, and `shutil.copy` into a
destination directory. -/
inductive Action
  | report (src : String)
  | mkdirs (dir : String)
  | copy (src dstRoot : String)
deriving DecidableEq, Repr

/-- Embedding of the minified-variant preference (lines 116-120): if a
sibling with `.min` inserted before the extension exists, it silently
replaces the source path. -/
def effectiveSource (fs : FS) (srcPath : String) : String :=
  let se := splitext srcPath
  let minPath := se.1 ++ ".min" ++ se.2
  if fs.pathExists minPath then minPath else srcPath

/-- Embedding of the destination computation (lines 126-127): the output
root joined with the basename of the effective source. -/
def destPath (dstRoot srcPath : String) : String :=
  pathJoin dstRoot (basename srcPath)

/-- Embedding of the loop body for one glob-matched source path (lines
115-148): minified preference, missing-source report, content-hash
deduplication, directory creation and copy. Returns the new file system,
the actions performed, and the exception that escaped, if any. `digest`
abstracts `hashlib.sha1(...).hexdigest()`. -/
def processPair (digest : String → String) (fs : FS) (dstRoot srcPath0 : String) :
    FS × List Action × Option PyError :=
  let srcPath := effectiveSource fs srcPath0
  let reports : List Action :=
    if fs.pathExists srcPath then [] else [.report srcPath]
  let dstPath := destPath dstRoot srcPath
  if fs.pathExists dstPath then
    if fs.pathExists srcPath then
      if digest (fs.content srcPath) = digest (fs.content dstPath) then
        (fs, reports, none)
      else
        copyStep fs srcPath dstPath reports
    else
      (fs, reports, some (.ioError srcPath))
  else
    copyStep fs srcPath dstPath reports
where
  /-- Lines 143-148: ensure the destination root exists, then copy; copying
  a missing source raises `IOError`. -/
  copyStep (fs : FS) (srcPath dstPath : String) (reports : List Action) :
      FS × List Action × Option PyError :=
    let mk : List Action :=
      if fs.pathExists dstRoot then [] else [.mkdirs dstRoot]
    let fs1 := if fs.pathExists dstRoot then fs else fs.mkdir dstRoot
    if fs.pathExists srcPath then
      (fs1.copyFile srcPath dstPath, reports ++ mk ++ [.copy srcPath dstRoot], none)
    else
      (fs1, reports ++ mk, some (.ioError srcPath))

/-- Iteration of `processPair` over the glob matches of one pattern (line
115): an escaped exception aborts the remaining iterations. -/
def processPairs (digest : String → String) (fs : FS) (dstRoot : String) :
    List String → FS × List Action × Option PyError
  | [] => (fs, [], none)
  | p :: ps =>
    match processPair digest fs dstRoot p with
    | (fs1, as, some e) => (fs1, as, some e)
    | (fs1, as, none) =>
      match processPairs digest fs1 dstRoot ps with
      | (fs2, as2, e2) => (fs2, as ++ as2, e2)

/-- Embedding of the descriptor selection loop (lines 101-103): try
`bower.json` then `.bower.json` under the component directory and stop at
the first that exists; `none` when neither exists (the `break` sits inside
the existence branch, so the loop body runs for at most the first hit). -/
def selectDescriptor (fs : FS) (srcRoot : String) : Option String :=
  (["bower.json", ".bower.json"].map (fun name => pathJoin srcRoot name)).find?
    fs.pathExists

/-- Embedding of the destination-root computation (lines 107-110): under
`--with-version`, `assert not dst_root.endswith(os.sep)` raises
`AssertionError` on a trailing separator, and `dst_root += "-"+version`
raises `TypeError` when the descriptor declared no version (`version` is
`None`); otherwise the version string is appended after a dash. -/
def computeDstRoot (withVersion : Bool) (componentRoot dirName : String)
    (version : Option String) : Except PyError String :=
  let dstRoot := pathJoin componentRoot dirName
  if withVersion then
    if dstRoot.data.getLast? == some '/' then .error .assertionError
    else
      match version with
      | none => .error .typeError
      | some v => .ok (dstRoot ++ "-" ++ v)
  else .ok dstRoot

/-- Iteration over the filtered main-entry patterns (lines 112-115): each
pattern is joined to the component directory and expanded by `glob`; an
escaped exception aborts the remaining patterns. -/
def processPatterns (digest : String → String) (glob : String → List String)
    (dstRoot srcRoot : String) :
    FS → List String → FS × List Action × Option PyError
  | fs, [] => (fs, [], none)
  | fs, pat :: pats =>
    match processPairs digest fs dstRoot (glob (pathJoin srcRoot pat)) with
    | (fs1, as, some e) => (fs1, as, some e)
    | (fs1, as, none) =>
      match processPatterns digest glob dstRoot srcRoot fs1 pats with
      | (fs2, as2, e2) => (fs2, as ++ as2, e2)

/-- Embedding of the loop body of `clean_components_to_static_dir` for one
component directory (lines 96-149): select the descriptor, read `main`
and `version` from its parse, compute the destination root, and process
the filtered main entries. A component with no descriptor contributes
nothing. -/
def processComponent (digest : String → String) (glob : String → List String)
    (parse : String → Descriptor) (fs : FS) (componentRoot : String)
    (withVersion : Bool) (bowerDir dirName : String) :
    FS × List Action × Option PyError :=
  let srcRoot := pathJoin bowerDir dirName
  match selectDescriptor fs srcRoot with
  | none => (fs, [], none)
  | some descPath =>
    let desc := parse descPath
    let mainList := get_bower_main_list desc.main
    match computeDstRoot withVersion componentRoot dirName desc.version with
    | .error e => (fs, [], some e)
    | .ok dstRoot =>
      processPatterns digest glob dstRoot srcRoot fs (filteredMain mainList)

/-- Embedding of `clean_components_to_static_dir` over the listing of the
staging components directory: components are processed in order; an
escaped exception aborts the remaining ones. -/
def cleanComponents (digest : String → String) (glob : String → List String)
    (parse : String → Descriptor) (componentRoot : String) (withVersion : Bool)
    (bowerDir : String) :
    FS → List String → FS × List Action × Option PyError
  | fs, [] => (fs, [], none)
  | fs, d :: ds =>
    match processComponent digest glob parse fs componentRoot withVersion bowerDir d with
    | (fs1, as, some e) => (fs1, as, some e)
    | (fs1, as, none) =>
      match cleanComponents digest glob parse componentRoot withVersion bowerDir fs1 ds with
      | (fs2, as2, e2) => (fs2, as ++ as2, e2)

/-- Embedding of the tail of `Command.handle` (lines 187-194): compute the
`bower_components` subdirectory of the temp directory; if it does not
exist, print an informational message and `sys.exit(0)` without touching
the output root; otherwise run the flattening engine. The first component
of the result is the exit code when the process exited early. -/
def flattenPhase (digest : String → String) (glob : String → List String)
    (parse : String → Descriptor) (listDir : String → List String) (fs : FS)
    (componentRoot : String) (withVersion : Bool) (tempDir : String) :
    Option Nat × FS × List Action × Option PyError :=
  let bowerDir := pathJoin tempDir "bower_components"
  if fs.pathExists bowerDir then
    (none,
      cleanComponents digest glob parse componentRoot withVersion bowerDir fs
        (listDir bowerDir))
  else
    (some 0, fs, [], none)

/-- Lookup in the `bower_info` cache, modelled as an association list in
insertion order (the Python dict is keyed by descriptor path). -/
def lookupInfo (cache : List (String × Descriptor)) (path : String) :
    Option Descriptor :=
  (cache.find? (fun kv => kv.1 == path)).map (fun kv => kv.2)

/-- Embedding of `Command.get_bower_info` (lines 66-68): parse and store
the descriptor only when the path is not yet a key of the cache. The
second result lists the paths parsed by this call (the parse events). -/
def get_bower_info (parse : String → Descriptor)
    (cache : List (String × Descriptor)) (path : String) :
    List (String × Descriptor) × List String :=
  match lookupInfo cache path with
  | some _ => (cache, [])
  | none => (cache ++ [(path, parse path)], [path])

/-- A cache load as performed by `get_bower_main_list` and
`get_bower_version` (lines 70-90): `get_bower_info` followed by the
`self.bower_info[bower_json_path]` read. Returns the value, the updated
cache and the parse events. -/
def loadDescriptor (parse : String → Descriptor)
    (cache : List (String × Descriptor)) (path : String) :
    Descriptor × List (String × Descriptor) × List String :=
  match lookupInfo cache path with
  | some d => (d, cache, [])
  | none => (parse path, cache ++ [(path, parse path)], [path])

/-- A sequence of cache loads within one pipeline run, starting from a
given cache state, collecting all parse events in order. -/
def runLoads (parse : String → Descriptor) :
    List (String × Descriptor) → List String →
    List (String × Descriptor) × List String
  | cache, [] => (cache, [])
  | cache, p :: ps =>
    match loadDescriptor parse cache p with
    | (_, c1, ev) =>
      match runLoads parse c1 ps with
      | (c2, evs) => (c2, ev ++ evs)

/-- A file system in which no path exists. -/
def emptyFS : FS :=
  { pathExists := fun _ => false, content := fun _ => "", mtime := fun _ => 0 }

/-- Concrete file system in which the `ui` component has both the primary
and the fallback descriptor file. -/
def fsBoth : FS :=
  { pathExists := fun p =>
      p == "/stage/bower_components/ui/bower.json" ||
      p == "/stage/bower_components/ui/.bower.json",
    content := fun _ => "", mtime := fun _ => 0 }

/-- Concrete file system in which the `ui` component has only the primary
descriptor file. -/
def fsPrimaryOnly : FS :=
  { pathExists := fun p => p == "/stage/bower_components/ui/bower.json",
    content := fun _ => "", mtime := fun _ => 0 }

/-- Concrete parse results giving the primary `ui` descriptor a main entry
and a version, and nothing to any other path. -/
def parseA : String → Descriptor := fun p =>
  if p == "/stage/bower_components/ui/bower.json" then
    { main := MainVal.scalar "ui.js", version := some "2.0" }
  else { main := MainVal.absent, version := none }

/-- Concrete parse results agreeing with `parseA` on the primary `ui`
descriptor but giving different fields to every other path, in particular
to the fallback `.bower.json`. -/
def parseB : String → Descriptor := fun p =>
  if p == "/stage/bower_components/ui/bower.json" then
    { main := MainVal.scalar "ui.js", version := some "2.0" }
  else { main := MainVal.list ["fallback.js"], version := some "9.9" }

/-- Concrete parse results declaring no version for any path. -/
def parseNoVersion : String → Descriptor := fun _ =>
  { main := MainVal.scalar "ui.js", version := none }

/-- Concrete parse results for the cache witness. -/
def parseJQ : String → Descriptor := fun p =>
  if p == "/stage/bower_components/jquery/.bower.json" then
    { main := MainVal.scalar "dist/jquery.js", version := some "3.1.0" }
  else { main := MainVal.absent, version := none }

/-- The jquery descriptor stored by the cache witness. -/
def descJQ : Descriptor :=
  { main := MainVal.scalar "dist/jquery.js", version := some "3.1.0" }

/-- Concrete file system for the dedup check: source and destination both
exist with identical content but different modification times. -/
def fsDedup : FS :=
  { pathExists := fun p => p == "/stage/a/x.js" || p == "/out/a/x.js",
    content := fun p =>
      if p == "/stage/a/x.js" then "X" else if p == "/out/a/x.js" then "X" else "",
    mtime := fun p => if p == "/out/a/x.js" then 5 else 9 }

/-- Concrete file system for the minified-preference check: the jquery
component ships both the plain and the minified main file; the output root
does not exist yet. -/
def jqueryFS : FS :=
  { pathExists := fun p =>
      p == "/stage/bower_components/jquery/dist/jquery.js" ||
      p == "/stage/bower_components/jquery/dist/jquery.min.js" ||
      p == "/static/components",
    content := fun p =>
      if p == "/stage/bower_components/jquery/dist/jquery.js" then "FULL"
      else if p == "/stage/bower_components/jquery/dist/jquery.min.js" then "MINIFIED"
      else "",
    mtime := fun _ => 0 }

/-- Concrete file system for the missing-source check: one resolved main
entry does not exist on disk (for example a broken symlink returned by the
glob), a second one does, and the destination root already exists. -/
def fsMissing : FS :=
  { pathExists := fun p =>
      p == "/stage/comp/ok.js" || p == "/static/components/comp",
    content := fun p => if p == "/stage/comp/ok.js" then "OK" else "",
    mtime := fun _ => 0 }

/-- C2 counterexample: the claim says `mainEntries` returns `[main]`
whenever `main` is a scalar string, but for the empty scalar string the
code falls through the truthiness test and returns `[]`, not `[""]`. -/
theorem get_bower_main_list_empty_scalar_counterexample :
    get_bower_main_list (MainVal.scalar "") = [] ∧
    get_bower_main_list (MainVal.scalar "") ≠ [""] := by
  constructor
  · rfl
  · decide

/-- C2 (amended): `get_bower_main_list` is total over absent, scalar and
list values of `main` and always returns a list: `[]` for an absent
`main`, the list unchanged when `main` is already a list, `[main]` for a
non-empty scalar string, and `[]` (not `[main]`) for the empty scalar
string. -/
theorem get_bower_main_list_total :
    get_bower_main_list MainVal.absent = [] ∧
    (∀ l : List String, get_bower_main_list (MainVal.list l) = l) ∧
    (∀ s : String, s ≠ "" → get_bower_main_list (MainVal.scalar s) = [s]) ∧
    get_bower_main_list (MainVal.scalar "") = [] := by
  refine ⟨rfl, fun l => rfl, fun s hs => ?_, rfl⟩
  simp [get_bower_main_list, hs]

/-- C2 witness: the amended statement evaluated at concrete inputs. -/
theorem get_bower_main_list_total_witness :
    get_bower_main_list (MainVal.list ["a.js", "b.css"]) = ["a.js", "b.css"] ∧
    ("x.js" ≠ "" ∧ get_bower_main_list (MainVal.scalar "x.js") = ["x.js"]) := by
  refine ⟨get_bower_main_list_total.2.1 _, ⟨by decide, ?_⟩⟩
  exact get_bower_main_list_total.2.2.1 "x.js" (by decide)

/-- C6: the version probe decides two fatal outcomes with distinct exit
statuses before any install: a missing bower binary exits the pipeline
with code 1, a failing probe command exits with code 2, and only a
successful probe reaches the `bower install` invocation (with the
descriptor path, verbose flag and destination working-directory config). -/
theorem bower_install_probe_gates_install :
    (∀ m p d, bower_install (ProbeResult.toolMissing m) p d =
        InvocationOutcome.exitCode 1) ∧
    (∀ m p d, bower_install (ProbeResult.probeFailed m) p d =
        InvocationOutcome.exitCode 2) ∧
    (∀ v p d, bower_install (ProbeResult.ok v) p d =
        InvocationOutcome.installed
          ["bower", "install", p, "--verbose", "--config.cwd=" ++ d, "-p"]) ∧
    (∀ pr p d args, bower_install pr p d = InvocationOutcome.installed args →
        ∃ v, pr = ProbeResult.ok v) := by
  refine ⟨fun m p d => rfl, fun m p d => rfl, fun v p d => rfl, ?_⟩
  intro pr p d args h
  cases pr with
  | toolMissing m => simp [bower_install] at h
  | probeFailed m => simp [bower_install] at h
  | ok v => exact ⟨v, rfl⟩

/-- C6 witness: the probe-gating theorem applied at concrete inputs,
discharging the hypothesis of its final conjunct. -/
theorem bower_install_probe_gates_install_witness :
    bower_install (ProbeResult.toolMissing "ENOENT") "/app/bower.json" "/tmp1" =
      InvocationOutcome.exitCode 1 ∧
    bower_install (ProbeResult.probeFailed "exit 3") "/app/bower.json" "/tmp1" =
      InvocationOutcome.exitCode 2 ∧
    ∃ v, ProbeResult.ok "1.8.8" = ProbeResult.ok v := by
  refine ⟨bower_install_probe_gates_install.1 _ _ _,
    bower_install_probe_gates_install.2.1 _ _ _, ?_⟩
  exact bower_install_probe_gates_install.2.2.2 (ProbeResult.ok "1.8.8")
    "/app/bower.json" "/tmp1"
    ["bower", "install", "/app/bower.json", "--verbose",
      "--config.cwd=/tmp1", "-p"] rfl

/-- Helper: when the effective source and the destination both exist and
their digests agree, the loop body does nothing at all. -/
lemma processPair_skip (digest : String → String) (fs : FS) (dstRoot src : String)
    (hsrc : fs.pathExists (effectiveSource fs src) = true)
    (hdst : fs.pathExists (destPath dstRoot (effectiveSource fs src)) = true)
    (hdig : digest (fs.content (effectiveSource fs src)) =
      digest (fs.content (destPath dstRoot (effectiveSource fs src)))) :
    processPair digest fs dstRoot src = (fs, [], none) := by
  simp [processPair, hsrc, hdst, hdig]

/-- C1: for every source/destination pair whose destination already exists
with the same content digest as the effective source, the copy step is
skipped: no copy, no directory creation, no action at all, and the file
system is returned unchanged. The modification times in `fs` are
universally quantified and never consulted, so the skip holds regardless
of metadata such as timestamps; a whole run over such pairs performs zero
writes. -/
theorem flatten_dedup_skip (digest : String → String) (fs : FS) (dstRoot : String)
    (pairs : List String)
    (h : ∀ p ∈ pairs, fs.pathExists (effectiveSource fs p) = true ∧
      fs.pathExists (destPath dstRoot (effectiveSource fs p)) = true ∧
      digest (fs.content (effectiveSource fs p)) =
        digest (fs.content (destPath dstRoot (effectiveSource fs p)))) :
    processPairs digest fs dstRoot pairs = (fs, [], none) := by
  induction pairs with
  | nil => rfl
  | cons p ps ih =>
    have hp := h p (List.mem_cons_self p ps)
    have hrest := fun q hq => h q (List.mem_cons_of_mem p hq)
    have h1 : processPair digest fs dstRoot p = (fs, [], none) :=
      processPair_skip digest fs dstRoot p hp.1 hp.2.1 hp.2.2
    simp [processPairs, h1, ih hrest]

/-- C1 witness: a concrete pair with equal content but different
modification times is skipped with zero writes. -/
theorem flatten_dedup_skip_witness :
    (∀ p ∈ ["/stage/a/x.js"], fsDedup.pathExists (effectiveSource fsDedup p) = true ∧
      fsDedup.pathExists (destPath "/out/a" (effectiveSource fsDedup p)) = true ∧
      (fun s => s) (fsDedup.content (effectiveSource fsDedup p)) =
        (fun s => s) (fsDedup.content (destPath "/out/a" (effectiveSource fsDedup p)))) ∧
    processPairs (fun s => s) fsDedup "/out/a" ["/stage/a/x.js"] =
      (fsDedup, [], none) := by
  have h : ∀ p ∈ ["/stage/a/x.js"],
      fsDedup.pathExists (effectiveSource fsDedup p) = true ∧
      fsDedup.pathExists (destPath "/out/a" (effectiveSource fsDedup p)) = true ∧
      (fun s : String => s) (fsDedup.content (effectiveSource fsDedup p)) =
        (fun s : String => s) (fsDedup.content (destPath "/out/a" (effectiveSource fsDedup p))) := by
    decide
  exact ⟨h, flatten_dedup_skip (fun s => s) fsDedup "/out/a" ["/stage/a/x.js"] h⟩

/-- C4: minified-variant preference and basename preservation. If the
sibling path with `.min` inserted before the extension exists, it becomes
the effective source; every copy performed by the loop body copies the
effective source into the output root (so the destination is the output
root joined with the basename of the effective source); and in the
concrete two-file jquery scenario the output directory receives
`jquery.min.js` with the minified content while `jquery.js` is absent. -/
theorem min_variant_preference :
    (∀ (fs : FS) (src : String),
      fs.pathExists ((splitext src).1 ++ ".min" ++ (splitext src).2) = true →
      effectiveSource fs src = (splitext src).1 ++ ".min" ++ (splitext src).2) ∧
    (∀ (digest : String → String) (fs : FS) (dstRoot src a b : String),
      Action.copy a b ∈ (processPair digest fs dstRoot src).2.1 →
      a = effectiveSource fs src ∧ b = dstRoot) ∧
    ((processPair (fun s => s) jqueryFS "/static/components/jquery"
        "/stage/bower_components/jquery/dist/jquery.js").2 =
      ([Action.mkdirs "/static/components/jquery",
        Action.copy "/stage/bower_components/jquery/dist/jquery.min.js"
          "/static/components/jquery"], none)) ∧
    ((processPair (fun s => s) jqueryFS "/static/components/jquery"
        "/stage/bower_components/jquery/dist/jquery.js").1.pathExists
        "/static/components/jquery/jquery.min.js" = true) ∧
    ((processPair (fun s => s) jqueryFS "/static/components/jquery"
        "/stage/bower_components/jquery/dist/jquery.js").1.content
        "/static/components/jquery/jquery.min.js" = "MINIFIED") ∧
    ((processPair (fun s => s) jqueryFS "/static/components/jquery"
        "/stage/bower_components/jquery/dist/jquery.js").1.pathExists
        "/static/components/jquery/jquery.js" = false) := by
  refine ⟨?_, ?_, by decide, by decide, by decide, by decide⟩
  · intro fs src h
    simp [effectiveSource, h]
  · intro digest fs dstRoot src a b hmem
    simp only [processPair, processPair.copyStep] at hmem
    split_ifs at hmem <;> simp_all

/-- C4 witness: the general conjuncts applied in the jquery scenario,
discharging their hypotheses at concrete inputs. -/
theorem min_variant_preference_witness :
    (jqueryFS.pathExists
        ((splitext "/stage/bower_components/jquery/dist/jquery.js").1 ++ ".min" ++
          (splitext "/stage/bower_components/jquery/dist/jquery.js").2) = true) ∧
    (effectiveSource jqueryFS "/stage/bower_components/jquery/dist/jquery.js" =
      (splitext "/stage/bower_components/jquery/dist/jquery.js").1 ++ ".min" ++
        (splitext "/stage/bower_components/jquery/dist/jquery.js").2) ∧
    ("/stage/bower_components/jquery/dist/jquery.min.js" =
        effectiveSource jqueryFS "/stage/bower_components/jquery/dist/jquery.js" ∧
      "/static/components/jquery" = "/static/components/jquery") := by
  refine ⟨by decide, min_variant_preference.1 jqueryFS _ (by decide), ?_⟩
  exact min_variant_preference.2.1 (fun s => s) jqueryFS "/static/components/jquery"
    "/stage/bower_components/jquery/dist/jquery.js"
    "/stage/bower_components/jquery/dist/jquery.min.js"
    "/static/components/jquery" (by decide)

/-- C7 counterexample: the claim says a missing effective source is
non-fatal and iteration continues. On a concrete run with a missing first
source, the loop reports it and proceeds to the copy, but the copy of the
nonexistent file raises `IOError`, which halts iteration: the second,
perfectly copyable pair is never copied (processed alone it would be). -/
theorem missing_source_counterexample :
    ((processPairs (fun s => s) fsMissing "/static/components/comp"
        ["/stage/comp/gone.js", "/stage/comp/ok.js"]).2 =
      ([Action.report "/stage/comp/gone.js"],
        some (PyError.ioError "/stage/comp/gone.js"))) ∧
    (Action.copy "/stage/comp/ok.js" "/static/components/comp" ∉
      (processPairs (fun s => s) fsMissing "/static/components/comp"
        ["/stage/comp/gone.js", "/stage/comp/ok.js"]).2.1) ∧
    ((processPairs (fun s => s) fsMissing "/static/components/comp"
        ["/stage/comp/ok.js"]).2 =
      ([Action.copy "/stage/comp/ok.js" "/static/components/comp"], none)) := by
  refine ⟨by decide, by decide, by decide⟩

/-- C7 (amended): a pair whose effective source does not exist is
reported first, and the copy step is still reached for that pair, but
opening or copying the nonexistent source raises an `IOError` that
escapes the loop: the result of the iteration is that of the failing pair
alone, so the remaining pairs are never processed. -/
theorem missing_source_reported_then_fatal (digest : String → String) (fs : FS)
    (dstRoot src : String) (rest : List String)
    (hmiss : fs.pathExists (effectiveSource fs src) = false) :
    (processPair digest fs dstRoot src).2.1.head? =
      some (Action.report (effectiveSource fs src)) ∧
    (processPair digest fs dstRoot src).2.2 =
      some (PyError.ioError (effectiveSource fs src)) ∧
    processPairs digest fs dstRoot (src :: rest) =
      processPairs digest fs dstRoot [src] := by
  have h12 : (processPair digest fs dstRoot src).2.1.head? =
      some (Action.report (effectiveSource fs src)) ∧
      (processPair digest fs dstRoot src).2.2 =
      some (PyError.ioError (effectiveSource fs src)) := by
    simp only [processPair, processPair.copyStep, hmiss]
    split_ifs <;> simp_all
  refine ⟨h12.1, h12.2, ?_⟩
  rcases hp : processPair digest fs dstRoot src with ⟨fs1, as, e⟩
  have he : e = some (PyError.ioError (effectiveSource fs src)) := by
    have := h12.2
    rw [hp] at this
    exact this
  subst he
  simp [processPairs, hp]

/-- C7 witness: the amended statement evaluated on the concrete missing
source, discharging its hypothesis. -/
theorem missing_source_reported_then_fatal_witness :
    fsMissing.pathExists (effectiveSource fsMissing "/stage/comp/gone.js") = false ∧
    ((processPair (fun s => s) fsMissing "/static/components/comp"
        "/stage/comp/gone.js").2.1.head? =
      some (Action.report (effectiveSource fsMissing "/stage/comp/gone.js")) ∧
    (processPair (fun s => s) fsMissing "/static/components/comp"
        "/stage/comp/gone.js").2.2 =
      some (PyError.ioError (effectiveSource fsMissing "/stage/comp/gone.js")) ∧
    processPairs (fun s => s) fsMissing "/static/components/comp"
        ["/stage/comp/gone.js", "/stage/comp/ok.js"] =
      processPairs (fun s => s) fsMissing "/static/components/comp"
        ["/stage/comp/gone.js"]) :=
  ⟨by decide, missing_source_reported_then_fatal (fun s => s) fsMissing
    "/static/components/comp" "/stage/comp/gone.js" ["/stage/comp/ok.js"]
    (by decide)⟩

/-- Helper: cache lookup on a cons cell. -/
lemma lookupInfo_cons (kv : String × Descriptor) (cache : List (String × Descriptor))
    (path : String) :
    lookupInfo (kv :: cache) path =
      if kv.1 == path then some kv.2 else lookupInfo cache path := by
  by_cases h : (kv.1 == path) = true
  · simp [lookupInfo, List.find?_cons, h]
  · simp only [Bool.not_eq_true] at h
    simp [lookupInfo, List.find?_cons, h]

/-- Helper: appending a fresh entry for a path makes it found. -/
lemma lookupInfo_append_of_none (cache : List (String × Descriptor)) (path : String)
    (d : Descriptor) (h : lookupInfo cache path = none) :
    lookupInfo (cache ++ [(path, d)]) path = some d := by
  induction cache with
  | nil => simp [lookupInfo, List.find?_cons]
  | cons kv tl ih =>
    rw [lookupInfo_cons] at h
    rw [List.cons_append, lookupInfo_cons]
    by_cases hk : (kv.1 == path) = true
    · simp [hk] at h
    · simp only [Bool.not_eq_true] at hk
      simp only [hk, if_false] at h ⊢
      exact ih h

/-- Helper: appending an entry for a different key does not change a
lookup. -/
lemma lookupInfo_append_ne (cache : List (String × Descriptor)) (path k : String)
    (d : Descriptor) (h : (k == path) = false) :
    lookupInfo (cache ++ [(k, d)]) path = lookupInfo cache path := by
  induction cache with
  | nil => simp [lookupInfo, List.find?_cons, h]
  | cons kv tl ih =>
    rw [List.cons_append, lookupInfo_cons, lookupInfo_cons]
    by_cases hk : (kv.1 == path) = true <;> simp [hk, ih]

/-- Helper: over any whole sequence of loads, a given path is parsed at
most once beyond what the starting cache already knows. -/
lemma runLoads_count_le (parse : String → Descriptor) (reqs : List String)
    (cache : List (String × Descriptor)) (path : String) :
    ((runLoads parse cache reqs).2.count path) ≤
      (if (lookupInfo cache path).isSome then 0 else 1) := by
  induction reqs generalizing cache with
  | nil => simp [runLoads]
  | cons p ps ih =>
    rcases hl : lookupInfo cache p with _ | d
    · by_cases hpq : (p == path) = true
      · have hpe : p = path := beq_iff_eq.mp hpq
        subst hpe
        have h1 : lookupInfo (cache ++ [(p, parse p)]) p = some (parse p) :=
          lookupInfo_append_of_none cache p (parse p) hl
        simp only [runLoads, loadDescriptor, hl]
        rcases hr : runLoads parse (cache ++ [(p, parse p)]) ps with ⟨c2, evs⟩
        have h2 := ih (cache ++ [(p, parse p)])
        rw [hr, h1] at h2
        simp only [Option.isSome_some, if_true, Nat.le_zero] at h2
        simp [List.count_cons, h2, hl]
      · simp only [Bool.not_eq_true] at hpq
        have h1 : lookupInfo (cache ++ [(p, parse p)]) path = lookupInfo cache path :=
          lookupInfo_append_ne cache path p (parse p) hpq
        simp only [runLoads, loadDescriptor, hl]
        rcases hr : runLoads parse (cache ++ [(p, parse p)]) ps with ⟨c2, evs⟩
        have h2 := ih (cache ++ [(p, parse p)])
        rw [hr, h1] at h2
        simpa [List.count_cons, hpq] using h2
    · simp only [runLoads, loadDescriptor, hl]
      rcases hr : runLoads parse cache ps with ⟨c2, evs⟩
      have h2 := ih cache
      rw [hr] at h2
      simpa using h2

/-- C9: the descriptor cache memoizes by path. The first load of a path
parses the file and stores the result; a load of an already-cached path
returns the stored value with no parse and no cache change; loading the
same path again right after any load parses nothing; and over any whole
run starting from the empty cache, each distinct path is parsed at most
once. -/
theorem descriptor_cache_memoizes (parse : String → Descriptor)
    (cache : List (String × Descriptor)) (path : String) (reqs : List String) :
    (lookupInfo cache path = none →
      loadDescriptor parse cache path =
        (parse path, cache ++ [(path, parse path)], [path])) ∧
    (∀ d, lookupInfo cache path = some d →
      loadDescriptor parse cache path = (d, cache, [])) ∧
    (loadDescriptor parse (loadDescriptor parse cache path).2.1 path =
      ((loadDescriptor parse cache path).1,
        (loadDescriptor parse cache path).2.1, [])) ∧
    ((runLoads parse [] reqs).2.count path ≤ 1) := by
  refine ⟨fun h => by simp [loadDescriptor, h], fun d h => by simp [loadDescriptor, h],
    ?_, ?_⟩
  · rcases h : lookupInfo cache path with _ | d
    · simp [loadDescriptor, h, lookupInfo_append_of_none cache path (parse path) h]
    · simp [loadDescriptor, h]
  · have := runLoads_count_le parse reqs [] path
    simpa [lookupInfo] using this

/-- C9 witness: the memoization statements applied at concrete caches and
paths, discharging the hypotheses of the first two conjuncts. -/
theorem descriptor_cache_memoizes_witness :
    (lookupInfo [] "/stage/bower_components/jquery/.bower.json" = none ∧
      loadDescriptor parseJQ [] "/stage/bower_components/jquery/.bower.json" =
        (descJQ, [("/stage/bower_components/jquery/.bower.json", descJQ)],
          ["/stage/bower_components/jquery/.bower.json"])) ∧
    (lookupInfo [("/stage/bower_components/jquery/.bower.json", descJQ)]
        "/stage/bower_components/jquery/.bower.json" = some descJQ ∧
      loadDescriptor parseJQ [("/stage/bower_components/jquery/.bower.json", descJQ)]
        "/stage/bower_components/jquery/.bower.json" =
        (descJQ, [("/stage/bower_components/jquery/.bower.json", descJQ)], [])) ∧
    ((runLoads parseJQ [] ["/stage/bower_components/jquery/.bower.json",
        "/stage/bower_components/jquery/.bower.json",
        "/stage/bower_components/ui/bower.json"]).2.count
      "/stage/bower_components/jquery/.bower.json" ≤ 1) := by
  refine ⟨⟨rfl, ?_⟩, ⟨rfl, ?_⟩, ?_⟩
  · have h := (descriptor_cache_memoizes parseJQ []
      "/stage/bower_components/jquery/.bower.json" []).1 rfl
    simpa [parseJQ, descJQ] using h
  · exact (descriptor_cache_memoizes parseJQ
      [("/stage/bower_components/jquery/.bower.json", descJQ)]
      "/stage/bower_components/jquery/.bower.json" []).2.1 descJQ rfl
  · exact (descriptor_cache_memoizes parseJQ []
      "/stage/bower_components/jquery/.bower.json"
      ["/stage/bower_components/jquery/.bower.json",
        "/stage/bower_components/jquery/.bower.json",
        "/stage/bower_components/ui/bower.json"]).2.2.2

/-- C3: descriptor selection tries `bower.json` then `.bower.json` and
stops at the first that exists. When the primary exists it is selected and
the fallback parse is never consulted: the component result is unchanged
under any reinterpretation of every other path, including the fallback
(even if the primary lacks `main` or `version`, which the hypotheses do
not constrain). When neither exists the component contributes nothing. -/
theorem descriptor_priority (digest : String → String) (glob : String → List String)
    (parseP parseQ : String → Descriptor) (fs : FS) (componentRoot : String)
    (withVersion : Bool) (bowerDir dirName : String)
    (hp : fs.pathExists (pathJoin (pathJoin bowerDir dirName) "bower.json") = true)
    (hagree : parseP (pathJoin (pathJoin bowerDir dirName) "bower.json") =
      parseQ (pathJoin (pathJoin bowerDir dirName) "bower.json")) :
    selectDescriptor fs (pathJoin bowerDir dirName) =
      some (pathJoin (pathJoin bowerDir dirName) "bower.json") ∧
    processComponent digest glob parseP fs componentRoot withVersion bowerDir dirName =
      processComponent digest glob parseQ fs componentRoot withVersion bowerDir dirName ∧
    ∀ fs2 : FS,
      fs2.pathExists (pathJoin (pathJoin bowerDir dirName) "bower.json") = false →
      fs2.pathExists (pathJoin (pathJoin bowerDir dirName) ".bower.json") = false →
      processComponent digest glob parseP fs2 componentRoot withVersion bowerDir dirName =
        (fs2, [], none) := by
  have hsel : selectDescriptor fs (pathJoin bowerDir dirName) =
      some (pathJoin (pathJoin bowerDir dirName) "bower.json") := by
    simp [selectDescriptor, List.find?_cons, hp]
  refine ⟨hsel, ?_, ?_⟩
  · simp [processComponent, hsel, hagree]
  · intro fs2 h1 h2
    have hsel2 : selectDescriptor fs2 (pathJoin bowerDir dirName) = none := by
      simp [selectDescriptor, List.find?_cons, h1, h2]
    simp [processComponent, hsel2]

/-- C3 witness: the priority statement on a concrete component carrying
both descriptor files, with two parses that differ on the fallback. -/
theorem descriptor_priority_witness :
    (fsBoth.pathExists
        (pathJoin (pathJoin "/stage/bower_components" "ui") "bower.json") = true) ∧
    (parseA (pathJoin (pathJoin "/stage/bower_components" "ui") "bower.json") =
      parseB (pathJoin (pathJoin "/stage/bower_components" "ui") "bower.json")) ∧
    (selectDescriptor fsBoth (pathJoin "/stage/bower_components" "ui") =
      some (pathJoin (pathJoin "/stage/bower_components" "ui") "bower.json")) ∧
    (processComponent (fun s => s) (fun _ => []) parseA fsBoth "/static/components"
        false "/stage/bower_components" "ui" =
      processComponent (fun s => s) (fun _ => []) parseB fsBoth "/static/components"
        false "/stage/bower_components" "ui") ∧
    (processComponent (fun s => s) (fun _ => []) parseA emptyFS "/static/components"
        false "/stage/bower_components" "ui" = (emptyFS, [], none)) := by
  have h := descriptor_priority (fun s => s) (fun _ => []) parseA parseB fsBoth
    "/static/components" false "/stage/bower_components" "ui" (by decide) (by decide)
  exact ⟨by decide, by decide, h.1, h.2.1, h.2.2 emptyFS (by decide) (by decide)⟩

/-- C5: in version-tagged mode a component whose selected descriptor
declares no version fails (the `"-"+version` concatenation raises
`TypeError`) with no writes, rather than silently using an unsuffixed
directory; when a version is declared the output root is the component
root joined with the directory name, a dash and the version. -/
theorem version_tag_requires_version (digest : String → String)
    (glob : String → List String) (parse : String → Descriptor) (fs : FS)
    (componentRoot bowerDir dirName descPath : String)
    (hsep : ((pathJoin componentRoot dirName).data.getLast? == some '/') = false)
    (hsel : selectDescriptor fs (pathJoin bowerDir dirName) = some descPath)
    (hver : (parse descPath).version = none) :
    computeDstRoot true componentRoot dirName none =
      Except.error PyError.typeError ∧
    processComponent digest glob parse fs componentRoot true bowerDir dirName =
      (fs, [], some PyError.typeError) ∧
    ∀ v, computeDstRoot true componentRoot dirName (some v) =
      Except.ok (pathJoin componentRoot dirName ++ "-" ++ v) := by
  have hc : computeDstRoot true componentRoot dirName none =
      Except.error PyError.typeError := by
    simp [computeDstRoot, hsep]
  refine ⟨hc, ?_, fun v => by simp [computeDstRoot, hsep]⟩
  simp [processComponent, hsel, hver, hc]

/-- C5 witness: the version-tagging statement on a concrete component with
a descriptor that declares no version. -/
theorem version_tag_requires_version_witness :
    ((pathJoin "/static/components" "ui").data.getLast? == some '/') = false ∧
    (selectDescriptor fsPrimaryOnly (pathJoin "/stage/bower_components" "ui") =
      some "/stage/bower_components/ui/bower.json") ∧
    ((parseNoVersion "/stage/bower_components/ui/bower.json").version = none) ∧
    (processComponent (fun s => s) (fun _ => []) parseNoVersion fsPrimaryOnly
        "/static/components" true "/stage/bower_components" "ui" =
      (fsPrimaryOnly, [], some PyError.typeError)) ∧
    (computeDstRoot true "/static/components" "ui" (some "2.0") =
      Except.ok (pathJoin "/static/components" "ui" ++ "-" ++ "2.0")) := by
  have h := version_tag_requires_version (fun s => s) (fun _ => []) parseNoVersion
    fsPrimaryOnly "/static/components" "/stage/bower_components" "ui"
    "/stage/bower_components/ui/bower.json" (by decide) (by decide) rfl
  exact ⟨by decide, by decide, rfl, h.2.1, h.2.2 "2.0"⟩

/-- C8: when the `bower_components` subdirectory of the temp directory
does not exist after the installs, the pipeline exits successfully with
code 0, leaving the file system untouched: no actions, no error and no
write to the output root. -/
theorem no_components_exit_zero (digest : String → String)
    (glob : String → List String) (parse : String → Descriptor)
    (listDir : String → List String) (fs : FS) (componentRoot : String)
    (withVersion : Bool) (tempDir : String)
    (h : fs.pathExists (pathJoin tempDir "bower_components") = false) :
    flattenPhase digest glob parse listDir fs componentRoot withVersion tempDir =
      (some 0, fs, [], none) := by
  simp [flattenPhase, h]

/-- C8 witness: the nothing-to-flatten exit on a concrete empty file
system. -/
theorem no_components_exit_zero_witness :
    emptyFS.pathExists (pathJoin "/app/.tmp" "bower_components") = false ∧
    flattenPhase (fun s => s) (fun _ => []) parseA (fun _ => []) emptyFS
        "/static/components" false "/app/.tmp" =
      (some 0, emptyFS, [], none) :=
  ⟨by decide, no_components_exit_zero (fun s => s) (fun _ => []) parseA (fun _ => [])
    emptyFS "/static/components" false "/app/.tmp" (by decide)⟩

/-- C10: empty-string entries of the `main` list are dropped by the
truthiness filter before glob expansion: the filtered pattern list never
holds the empty string, and a run over a main list with an empty entry
inserted anywhere is identical to the run without it, so the empty entry
contributes no resolved pairs and causes no error. -/
theorem empty_main_entries_filtered (xs ys : List String) :
    filteredMain (xs ++ "" :: ys) = filteredMain (xs ++ ys) ∧
    (filteredMain (xs ++ "" :: ys)).contains "" = false ∧
    ∀ (digest : String → String) (glob : String → List String)
      (dstRoot srcRoot : String) (fs : FS),
      processPatterns digest glob dstRoot srcRoot fs (filteredMain (xs ++ "" :: ys)) =
        processPatterns digest glob dstRoot srcRoot fs (filteredMain (xs ++ ys)) := by
  have h1 : filteredMain (xs ++ "" :: ys) = filteredMain (xs ++ ys) := by
    simp [filteredMain, List.filter_append]
  have h2 : ∀ l : List String, (filteredMain l).contains "" = false := by
    intro l
    simp [filteredMain, List.contains]
  exact ⟨h1, h2 _, fun digest glob dstRoot srcRoot fs => by rw [h1]⟩

end DjangoBwr
